import Mathlib

/-!
Verification of the derived-metrics and validation layer of the smart-store
repository: the inventory status classifier, the financial KPI engine, the
CPF/CNPJ validators and masks, the person-name formatter, the cash
opening-balance aggregation, and the dashboard ranking helpers.

All JavaScript numbers are modelled as rationals (ℚ); timestamps as integers
(epoch instants); strings as lists of characters.
-/

namespace SmartStore

/-- Product inventory status, from the ProductStatus enum of the shared types
file (RUPTURA = out of stock, RISCO = at risk, SEGURANCA = healthy,
EXCESSO = excess). -/
inductive ProductStatus
  | ruptura
  | risco
  | seguranca
  | excesso
  deriving DecidableEq

/-- Inventory status classification of the Products list (productsWithMetrics):
stock ≤ 0 is out of stock; otherwise, with positive sales, the days of stock
remaining at the current daily rate are bucketed at 7 and 30 days; no sales
with positive stock is excess. `today` is the current day of month
(days elapsed in the reference month). -/
def productStatus (stock soldQty today : ℚ) : ProductStatus :=
  if stock ≤ 0 then ProductStatus.ruptura
  else if soldQty > 0 then
    if soldQty / today > 0 then
      if stock / (soldQty / today) ≤ 7 then ProductStatus.risco
      else if stock / (soldQty / today) ≤ 30 then ProductStatus.seguranca
      else ProductStatus.excesso
    else ProductStatus.excesso
  else ProductStatus.excesso

/-- The classifier algorithm exactly as the specification words it
(section 4.2): `dailyRate = unitsSold / daysElapsed`; `dailyRate ≤ 0` is
excess, otherwise `daysOfStockRemaining = stock / dailyRate` is bucketed
at 7 and 30 days. -/
def specInventoryStatus (stock unitsSold daysElapsed : ℚ) : ProductStatus :=
  if stock ≤ 0 then ProductStatus.ruptura
  else if unitsSold > 0 then
    if unitsSold / daysElapsed ≤ 0 then ProductStatus.excesso
    else
      if stock / (unitsSold / daysElapsed) ≤ 7 then ProductStatus.risco
      else if stock / (unitsSold / daysElapsed) ≤ 30 then ProductStatus.seguranca
      else ProductStatus.excesso
  else ProductStatus.excesso

/-- Stock-level classification used by the Dashboard stock-level summary
(stockLevelSummary): only `stock = 0` counts as out of stock, and the daily
sales rate is computed through the projected monthly sales
`(soldQty / daysPassed) * daysInMonth` divided back by `daysInMonth`. -/
def dashStockStatus (stock soldQty dp daysInMonth : ℚ) : ProductStatus :=
  if stock = 0 then ProductStatus.ruptura
  else if soldQty > 0 then
    if stock / (soldQty / dp * daysInMonth / daysInMonth) ≤ 7 then ProductStatus.risco
    else if stock / (soldQty / dp * daysInMonth / daysInMonth) ≤ 30 then ProductStatus.seguranca
    else ProductStatus.excesso
  else ProductStatus.excesso

/-- Claim C1: the Products-list inventory classifier computes exactly the
specification's four-way algorithm, and the example (stock 100, 50 units sold,
10 days elapsed) is classified Healthy (seguranca). -/
theorem productStatus_matches_spec :
    (∀ stock soldQty daysElapsed : ℚ,
        productStatus stock soldQty daysElapsed
          = specInventoryStatus stock soldQty daysElapsed)
    ∧ productStatus 100 50 10 = ProductStatus.seguranca := by
  constructor
  · intro stock soldQty d
    unfold productStatus specInventoryStatus
    split_ifs <;> first | rfl | linarith
  · norm_num [productStatus]

/-- Claim C10: on the data-model domain (nonnegative stock, at least one day
elapsed, a positive month length) the Dashboard stock-level bucketing agrees
with the Products-list classifier. -/
theorem dashStockStatus_eq_productStatus (stock soldQty dp dim : ℚ)
    (hstock : 0 ≤ stock) (hdp : 0 < dp) (hdim : 0 < dim) :
    dashStockStatus stock soldQty dp dim = productStatus stock soldQty dp := by
  have hdim0 : dim ≠ 0 := ne_of_gt hdim
  have hkey : soldQty / dp * dim / dim = soldQty / dp :=
    mul_div_cancel_right₀ _ hdim0
  unfold dashStockStatus productStatus
  rw [hkey]
  by_cases h0 : stock = 0
  · simp [h0]
  · have hpos : 0 < stock := lt_of_le_of_ne hstock (Ne.symm h0)
    rw [if_neg h0, if_neg (not_le.mpr hpos)]
    by_cases hq : soldQty > 0
    · rw [if_pos hq, if_pos hq, if_pos (div_pos hq hdp)]
    · rw [if_neg hq, if_neg hq]

/-- Witness for C10 at a concrete point. -/
theorem dashStockStatus_eq_productStatus_witness :
    dashStockStatus 100 50 10 30 = productStatus 100 50 10 :=
  dashStockStatus_eq_productStatus 100 50 10 30 (by norm_num) (by norm_num)
    (by norm_num)

/-- Contribution margin percentage from the Dashboard KPI block:
`currentRevenue > 0 ? ((currentRevenue - totalVariableCosts) / currentRevenue) * 100 : 0`. -/
def currentAvgContributionMargin (currentRevenue totalVariableCosts : ℚ) : ℚ :=
  if currentRevenue > 0 then (currentRevenue - totalVariableCosts) / currentRevenue * 100
  else 0

/-- Break-even revenue from the Dashboard KPI block:
`predictedMarginRatio > 0 ? fixedCosts / predictedMarginRatio : 0` where the
margin ratio is `goals.predictedAvgMargin / 100`. -/
def breakEvenPoint (fixedCosts predictedAvgMargin : ℚ) : ℚ :=
  if predictedAvgMargin / 100 > 0 then fixedCosts / (predictedAvgMargin / 100)
  else 0

/-- Revenue goal from the Dashboard KPI block: break-even plus the net-profit
goal. -/
def totalRevenueGoal (fixedCosts predictedAvgMargin netProfitGoal : ℚ) : ℚ :=
  breakEvenPoint fixedCosts predictedAvgMargin + netProfitGoal

/-- Goal-progress percentage from the Dashboard KPI block:
`totalRevenueGoal > 0 ? (currentRevenue / totalRevenueGoal) * 100 : 0`. -/
def progressPercentage (currentRevenue goalTotal : ℚ) : ℚ :=
  if goalTotal > 0 then currentRevenue / goalTotal * 100 else 0

/-- Linear revenue forecast from the Dashboard KPI block:
`daysPassed > 0 ? (currentRevenue / daysPassed) * daysInMonth : 0`. -/
def monthlyForecast (currentRevenue dp daysInMonth : ℚ) : ℚ :=
  if dp > 0 then currentRevenue / dp * daysInMonth else 0

/-- Actual inventory turnover from the Dashboard KPI block:
`averageInventoryValue > 0 ? monthlyCOGS / averageInventoryValue : 0`. -/
def actualInventoryTurnover (monthlyCOGS averageInventoryValue : ℚ) : ℚ :=
  if averageInventoryValue > 0 then monthlyCOGS / averageInventoryValue else 0

/-- Projected inventory turnover from the Dashboard KPI block:
`averageInventoryValue > 0 && daysPassed > 0
  ? (monthlyCOGS / averageInventoryValue) * (daysInMonth / daysPassed) : 0`. -/
def projectedInventoryTurnover
    (monthlyCOGS averageInventoryValue dp daysInMonth : ℚ) : ℚ :=
  if averageInventoryValue > 0 ∧ dp > 0 then
    monthlyCOGS / averageInventoryValue * (daysInMonth / dp)
  else 0

/-- Days elapsed in the competency month, from the Dashboard:
`isCurrentMonth ? Math.min(now.getDate(), daysInMonth) : daysInMonth`. -/
def daysPassed (isCurrentMonth : Bool) (todayDay daysInMonth : ℚ) : ℚ :=
  if isCurrentMonth then min todayDay daysInMonth else daysInMonth

/-- Claim C2: every KPI ratio with a potential zero denominator returns 0 at
that denominator (contribution margin at zero revenue, goal progress at a zero
revenue goal, both turnovers at zero average inventory value, and the forecast
at zero days elapsed); in this rational-number model every KPI is moreover a
total function, so no input yields a non-finite value or an exception. -/
theorem kpi_zero_denominators (revenue tvc goalTotal cogs avgInv dp dim : ℚ) :
    (revenue = 0 → currentAvgContributionMargin revenue tvc = 0)
    ∧ (goalTotal = 0 → progressPercentage revenue goalTotal = 0)
    ∧ (avgInv = 0 → actualInventoryTurnover cogs avgInv = 0
        ∧ projectedInventoryTurnover cogs avgInv dp dim = 0)
    ∧ (dp = 0 → monthlyForecast revenue dp dim = 0) := by
  refine ⟨?_, ?_, ?_, ?_⟩ <;> intro h <;>
    simp [currentAvgContributionMargin, progressPercentage,
      actualInventoryTurnover, projectedInventoryTurnover, monthlyForecast, h]

/-- Witness for C2 at concrete zero denominators. -/
theorem kpi_zero_denominators_witness :
    currentAvgContributionMargin 0 7 = 0
    ∧ progressPercentage 5 0 = 0
    ∧ (actualInventoryTurnover 3 0 = 0 ∧ projectedInventoryTurnover 3 0 2 30 = 0)
    ∧ monthlyForecast 9 0 30 = 0 :=
  ⟨(kpi_zero_denominators 0 7 1 3 1 1 30).1 rfl,
   (kpi_zero_denominators 5 7 0 3 1 1 30).2.1 rfl,
   (kpi_zero_denominators 5 7 1 3 0 2 30).2.2.1 rfl,
   (kpi_zero_denominators 9 7 1 3 1 0 30).2.2.2 rfl⟩

/-- Claim C5: for a nonnegative margin goal, the break-even revenue equals
`fixedCosts / (predictedAvgMargin / 100)` (with the rational convention that
division by zero is zero), it is 0 when the margin goal is 0, the total
revenue goal is break-even plus the net-profit goal, and fixed costs of 1000
with a 40 percent margin goal give a break-even of 2500. -/
theorem breakEven_formula (fixedCosts margin netProfitGoal : ℚ)
    (hm : 0 ≤ margin) :
    breakEvenPoint fixedCosts margin = fixedCosts / (margin / 100)
    ∧ (margin = 0 → breakEvenPoint fixedCosts margin = 0)
    ∧ totalRevenueGoal fixedCosts margin netProfitGoal
        = breakEvenPoint fixedCosts margin + netProfitGoal
    ∧ breakEvenPoint 1000 40 = 2500 := by
  refine ⟨?_, ?_, rfl, by norm_num [breakEvenPoint]⟩
  · unfold breakEvenPoint
    split_ifs with h
    · rfl
    · have h0 : margin / 100 = 0 :=
        le_antisymm (not_lt.mp h) (div_nonneg hm (by norm_num))
      rw [h0, div_zero]
  · intro h
    simp [breakEvenPoint, h]

/-- Witness for C5 at the specification's example. -/
theorem breakEven_formula_witness :
    (0 : ℚ) ≤ 40 ∧ breakEvenPoint 1000 40 = 2500 :=
  ⟨by norm_num, (breakEven_formula 1000 40 5000 (by norm_num)).2.2.2⟩

/-- Claim C8: for a competency month that is not the current month, the days
elapsed equal the full month length, so the monthly forecast equals the
realized revenue and the projected inventory turnover equals the actual
inventory turnover. -/
theorem closed_month_forecast (revenue todayDay dim cogs avgInv : ℚ)
    (hdim : 0 < dim) :
    daysPassed false todayDay dim = dim
    ∧ monthlyForecast revenue (daysPassed false todayDay dim) dim = revenue
    ∧ projectedInventoryTurnover cogs avgInv (daysPassed false todayDay dim) dim
        = actualInventoryTurnover cogs avgInv := by
  have hdp : daysPassed false todayDay dim = dim := by simp [daysPassed]
  refine ⟨hdp, ?_, ?_⟩
  · rw [hdp]
    unfold monthlyForecast
    rw [if_pos hdim]
    exact div_mul_cancel₀ revenue (ne_of_gt hdim)
  · rw [hdp]
    unfold projectedInventoryTurnover actualInventoryTurnover
    by_cases havg : avgInv > 0
    · rw [if_pos ⟨havg, hdim⟩, if_pos havg, div_self (ne_of_gt hdim), mul_one]
    · rw [if_neg fun hc => havg hc.1, if_neg havg]

/-- Witness for C8 at a concrete closed month. -/
theorem closed_month_forecast_witness :
    (0 : ℚ) < 30 ∧ monthlyForecast 300 (daysPassed false 5 30) 30 = 300 :=
  ⟨by norm_num, (closed_month_forecast 300 5 30 10 2 (by norm_num)).2.1⟩

/-- Transaction direction, from the TransactionType enum. -/
inductive TransactionType
  | income
  | expense
  deriving DecidableEq

/-- Transaction settlement status, from the TransactionStatus enum. -/
inductive TransactionStatus
  | pending
  | paid
  deriving DecidableEq

/-- Transaction category, from the TransactionCategory enum. -/
inductive TransactionCategory
  | rent
  | water
  | electricity
  | internet
  | taxes
  | salary
  | productPurchase
  | serviceRevenue
  | salesRevenue
  | serviceCost
  | other
  deriving DecidableEq

/-- Cash ledger entry, from the CashTransaction interface. Timestamps are
epoch instants. -/
structure CashTransaction where
  id : String
  description : String
  amount : ℚ
  type : TransactionType
  category : TransactionCategory
  status : TransactionStatus
  timestamp : ℤ
  dueDate : Option ℤ
  deriving DecidableEq

/-- The reducer of the Cash opening-balance computation: a paid transaction
moves the balance by +amount (income) or -amount (expense); a pending one
leaves it unchanged. -/
def cashStep (balance : ℚ) (t : CashTransaction) : ℚ :=
  if t.status = TransactionStatus.paid then
    balance + (if t.type = TransactionType.income then t.amount else -t.amount)
  else balance

/-- Signed cash effect of a paid transaction. -/
def signedAmount (t : CashTransaction) : ℚ :=
  if t.type = TransactionType.income then t.amount else -t.amount

/-- Opening balance of a competency month, from the Cash summary: reduce
`cashStep` over the transactions whose timestamp is strictly before the first
instant of the month. -/
def openingBalance (transactions : List CashTransaction)
    (competencyStart : ℤ) : ℚ :=
  ((transactions.filter (fun t => t.timestamp < competencyStart)).foldl
    cashStep 0)

theorem foldl_cashStep (l : List CashTransaction) (b : ℚ) :
    l.foldl cashStep b
      = b + ((l.filter (fun t => t.status = TransactionStatus.paid)).map
          signedAmount).sum := by
  induction l generalizing b with
  | nil => simp
  | cons t ts ih =>
    by_cases hp : t.status = TransactionStatus.paid
    · simp [List.foldl_cons, ih, cashStep, hp, List.filter_cons, signedAmount]
      ring
    · simp [List.foldl_cons, ih, cashStep, hp, List.filter_cons]

/-- Claim C6: the opening balance equals the signed sum over exactly the paid
transactions strictly before the month start; appending any transaction that
is pending or timestamped at or after the month start leaves it unchanged. -/
theorem openingBalance_characterization (transactions : List CashTransaction)
    (competencyStart : ℤ) :
    openingBalance transactions competencyStart
      = ((transactions.filter (fun t =>
            t.status = TransactionStatus.paid
              ∧ t.timestamp < competencyStart)).map signedAmount).sum
    ∧ (∀ t : CashTransaction,
        (t.status ≠ TransactionStatus.paid ∨ competencyStart ≤ t.timestamp) →
          openingBalance (transactions ++ [t]) competencyStart
            = openingBalance transactions competencyStart) := by
  have hmain : ∀ l : List CashTransaction,
      openingBalance l competencyStart
        = ((l.filter (fun t =>
              t.status = TransactionStatus.paid
                ∧ t.timestamp < competencyStart)).map signedAmount).sum := by
    intro l
    unfold openingBalance
    rw [foldl_cashStep, zero_add, List.filter_filter]
    have hsame : ∀ l0 : List CashTransaction,
        List.filter (fun a => decide (a.status = TransactionStatus.paid)
            && decide (a.timestamp < competencyStart)) l0
          = List.filter (fun t => decide (t.status = TransactionStatus.paid
              ∧ t.timestamp < competencyStart)) l0 := by
      intro l0
      apply List.filter_congr
      intro t _
      simp
    rw [hsame]
  refine ⟨hmain transactions, ?_⟩
  intro t ht
  rw [hmain, hmain, List.filter_append]
  have hdrop : List.filter (fun t =>
      decide (t.status = TransactionStatus.paid
        ∧ t.timestamp < competencyStart)) [t] = [] := by
    simp only [List.filter_cons, List.filter_nil, decide_eq_true_eq]
    rw [if_neg]
    rintro ⟨hp, hts⟩
    rcases ht with h | h
    · exact h hp
    · exact absurd hts (not_lt.mpr h)
  rw [hdrop, List.append_nil]

/-- Witness for C6: a pending transaction dated before the month start does
not change the opening balance. -/
theorem openingBalance_characterization_witness :
    openingBalance
        [⟨"t1", "sale", 100, TransactionType.income,
            TransactionCategory.salesRevenue, TransactionStatus.paid, -5, none⟩,
         ⟨"t3", "rent", 30, TransactionType.expense,
            TransactionCategory.rent, TransactionStatus.paid, -2, none⟩]
        0
      +
      ((openingBalance
          ([⟨"t1", "sale", 100, TransactionType.income,
              TransactionCategory.salesRevenue, TransactionStatus.paid, -5, none⟩,
            ⟨"t3", "rent", 30, TransactionType.expense,
              TransactionCategory.rent, TransactionStatus.paid, -2, none⟩]
            ++ [⟨"t2", "due", 40, TransactionType.income,
                  TransactionCategory.serviceRevenue, TransactionStatus.pending,
                  -5, none⟩])
          0) - (openingBalance
          [⟨"t1", "sale", 100, TransactionType.income,
              TransactionCategory.salesRevenue, TransactionStatus.paid, -5, none⟩,
           ⟨"t3", "rent", 30, TransactionType.expense,
              TransactionCategory.rent, TransactionStatus.paid, -2, none⟩]
          0))
      = 70 := by
  have h := (openingBalance_characterization
    [⟨"t1", "sale", 100, TransactionType.income,
        TransactionCategory.salesRevenue, TransactionStatus.paid, -5, none⟩,
     ⟨"t3", "rent", 30, TransactionType.expense,
        TransactionCategory.rent, TransactionStatus.paid, -2, none⟩] 0).2
    ⟨"t2", "due", 40, TransactionType.income,
        TransactionCategory.serviceRevenue, TransactionStatus.pending, -5, none⟩
    (Or.inl (by decide))
  rw [h]
  simp [openingBalance, cashStep]
  norm_num

/-- Discriminator of a sale item, from the SaleItem interface. -/
inductive SaleItemType
  | product
  | service
  deriving DecidableEq

/-- Sale line item, from the SaleItem interface: the referenced catalog item
is flattened to the fields the computations read (its id and cost). -/
structure SaleItem where
  itemId : String
  itemCost : ℚ
  quantity : ℚ
  unitPrice : ℚ
  type : SaleItemType
  deriving DecidableEq

/-- Sales ticket, from the TicketSale interface. -/
structure TicketSale where
  id : String
  items : List SaleItem
  total : ℚ
  timestamp : ℤ
  deriving DecidableEq

/-- Catalog product, from the Product interface (fields the metrics read). -/
structure Product where
  id : String
  name : String
  price : ℚ
  cost : ℚ
  stock : ℚ
  deriving DecidableEq

/-- Ranking row, from the TopProduct interface (turnoverRatio is optional in
the source and is called turnover here). -/
structure TopProduct where
  id : String
  name : String
  quantitySold : ℚ
  currentStock : ℚ
  turnover : Option ℚ
  deriving DecidableEq

/-- Daily sales peak, from the SalesPeak interface. -/
structure SalesPeak where
  date : String
  total : ℚ
  deriving DecidableEq

/-- Insertion-order map update, modelling
`map.set(k, (map.get(k) || 0) + v)` on a JavaScript Map: an existing key is
updated in place, a new key is appended. -/
def mapInsertAdd (m : List (String × ℚ)) (k : String) (v : ℚ) :
    List (String × ℚ) :=
  match m with
  | [] => [(k, v)]
  | (k0, v0) :: rest =>
      if k0 = k then (k0, v0 + v) :: rest else (k0, v0) :: mapInsertAdd rest k v

/-- Map read, modelling `map.get(k) || 0`. -/
def mapGet (m : List (String × ℚ)) (k : String) : ℚ :=
  match m with
  | [] => 0
  | (k0, v0) :: rest => if k0 = k then v0 else mapGet rest k

/-- The productSalesMap of the Dashboard: quantities of product-type sale
items summed per product id over the month's tickets, in insertion order. -/
def buildProductSalesMap (sales : List TicketSale) : List (String × ℚ) :=
  sales.foldl
    (fun m sale =>
      sale.items.foldl
        (fun m2 item =>
          if item.type = SaleItemType.product then
            mapInsertAdd m2 item.itemId item.quantity
          else m2)
        m)
    []

/-- Top-10 best sellers of the Dashboard: the sales map's entries, joined with
the catalog for name and current stock, sorted descending by quantity sold
(stable), first ten. -/
def top10SoldProducts (sales : List TicketSale) (products : List Product) :
    List TopProduct :=
  (((buildProductSalesMap sales).map (fun e =>
      { id := e.1
        name :=
          match products.find? (fun p => p.id == e.1) with
          | some p => if p.name = "" then "N/A" else p.name
          | none => "N/A"
        quantitySold := e.2
        currentStock :=
          match products.find? (fun p => p.id == e.1) with
          | some p => p.stock
          | none => 0
        turnover := none : TopProduct })).mergeSort
    (fun a b => decide (b.quantitySold ≤ a.quantitySold))).take 10

/-- Lowest-turnover ranking of the Dashboard: every product with positive
stock, with its units sold this month and turnover ratio soldQty / stock,
sorted ascending by ratio (stable), first ten. -/
def top10LowestTurnoverProducts (sales : List TicketSale)
    (products : List Product) : List TopProduct :=
  (((products.filter (fun p => p.stock > 0)).map (fun p =>
      { id := p.id
        name := p.name
        quantitySold := mapGet (buildProductSalesMap sales) p.id
        currentStock := p.stock
        turnover := some (mapGet (buildProductSalesMap sales) p.id / p.stock)
        : TopProduct })).mergeSort
    (fun a b => decide (a.turnover.getD 0 ≤ b.turnover.getD 0))).take 10

/-- Top-5 sales peaks of the Dashboard: ticket totals grouped by the calendar
day of their timestamp (the locale day-key function is abstracted as a
parameter), sorted descending by total, first five. -/
def top5SalesPeaks (dayKey : ℤ → String) (sales : List TicketSale) :
    List SalesPeak :=
  (((sales.foldl
        (fun m sale => mapInsertAdd m (dayKey sale.timestamp) sale.total)
        []).map (fun e => SalesPeak.mk e.1 e.2)).mergeSort
    (fun a b => decide (b.total ≤ a.total))).take 5

/-- Counterexample to claim C7 as stated: with an empty sales collection but a
catalog holding one product with positive stock, the lowest-turnover ranking
is not empty (it lists that product with zero units sold). -/
theorem lowestTurnover_not_empty_on_empty_sales :
    top10LowestTurnoverProducts [] [⟨"p1", "Case", 10, 5, 1⟩] ≠ [] := by
  norm_num [top10LowestTurnoverProducts, buildProductSalesMap, mapGet,
    List.filter]

/-- Claim C7 amended: for an empty sales collection the best-seller and
sales-peak rankings are empty (for any catalog and any day grouping) and no
helper throws (all are total functions), while the lowest-turnover ranking has
one entry per product with positive stock, capped at ten, so it is empty only
when no product has positive stock. -/
theorem rankings_on_empty_sales (products : List Product)
    (dayKey : ℤ → String) :
    top10SoldProducts [] products = []
    ∧ top5SalesPeaks dayKey [] = []
    ∧ (top10LowestTurnoverProducts [] products).length
        = min 10 (products.filter (fun p => p.stock > 0)).length := by
  refine ⟨?_, ?_, ?_⟩
  · simp [top10SoldProducts, buildProductSalesMap]
  · simp [top5SalesPeaks]
  · simp [top10LowestTurnoverProducts, List.length_take,
      List.length_mergeSort, List.length_map]

/-- Numeric value of a digit character (JavaScript parseInt on one char). -/
def digitVal (c : Char) : ℕ := c.toNat - 48

/-- Strip non-digits, modelling `value.replace(/\D/g, "")`. -/
def cleanDigits (s : List Char) : List Char := s.filter (fun c => c.isDigit)

/-- All-identical test, modelling the regexes `^(\d)\1{10}$` and
`^(\d)\1{13}$` on strings whose length is already known to be 11 or 14. -/
def allSameChars (s : List Char) : Bool :=
  match s with
  | [] => true
  | c :: rest => rest.all (fun x => x == c)

/-- Weighted sum of the validateCPF loops: digits left to right, weights
descending from `w` (the source's `sum += digit * (11 - i)` pattern). -/
def cpfSum (d : List ℕ) (w : ℕ) : ℕ :=
  match d with
  | [] => 0
  | x :: rest => x * w + cpfSum rest (w - 1)

/-- CPF validation, from validateCPF: length 11, not all identical, and two
weighted mod-11 check digits. -/
def validateCPF (cpf : List Char) : Bool :=
  let c := cleanDigits cpf
  if c.length ≠ 11 then false
  else if allSameChars c then false
  else
    let d := c.map digitVal
    let r1 := cpfSum (d.take 9) 10 * 10 % 11
    if (if r1 = 10 ∨ r1 = 11 then 0 else r1) ≠ d.getD 9 0 then false
    else
      let r2 := cpfSum (d.take 10) 11 * 10 % 11
      if (if r2 = 10 ∨ r2 = 11 then 0 else r2) ≠ d.getD 10 0 then false
      else true

/-- Weighted sum of the validateCNPJ loops: digits left to right, the weight
starting at `pos` and decrementing, resetting to 9 after reaching 2 (the
source's `pos--; if (pos < 2) pos = 9` pattern). -/
def cnpjLoopSum (numbers : List ℕ) (pos : ℕ) : ℕ :=
  match numbers with
  | [] => 0
  | x :: rest => x * pos + cnpjLoopSum rest (if pos - 1 < 2 then 9 else pos - 1)

/-- CNPJ validation, from validateCNPJ: length 14, not all identical, and two
weighted mod-11 check digits over the first 12 and 13 digits. -/
def validateCNPJ (cnpj : List Char) : Bool :=
  let c := cleanDigits cnpj
  if c.length ≠ 14 then false
  else if allSameChars c then false
  else
    let d := c.map digitVal
    let digits := d.drop 12
    let s1 := cnpjLoopSum (d.take 12) 5
    if (if s1 % 11 < 2 then 0 else 11 - s1 % 11) ≠ digits.getD 0 0 then false
    else
      let s2 := cnpjLoopSum (d.take 13) 6
      if (if s2 % 11 < 2 then 0 else 11 - s2 % 11) ≠ digits.getD 1 0 then false
      else true

/-- Tax-id validation dispatcher, from validateRegister: strip non-digits;
empty is valid (optional field), 11 digits go to the CPF check, 14 to the
CNPJ check, anything else is invalid. -/
def validateRegister (value : List Char) : Bool :=
  let cleanValue := cleanDigits value
  if cleanValue.length = 0 then true
  else if cleanValue.length = 11 then validateCPF cleanValue
  else if cleanValue.length = 14 then validateCNPJ cleanValue
  else false

/-- Check-digit reduction of the CPF checksum: (sum * 10) mod 11, with a
result of 10 (or the impossible 11) mapped to 0 - equivalently mod 10. -/
def cpfDigit (s : ℕ) : ℕ := s * 10 % 11 % 10

/-- Check-digit reduction of the CNPJ checksum. -/
def mod11Digit (s : ℕ) : ℕ := if s % 11 < 2 then 0 else 11 - s % 11

/-- Dot product of a weight vector with a digit list. -/
def weightedSum (w d : List ℕ) : ℕ := (List.zipWith (fun a b => a * b) w d).sum

/-- The two-pass mod-11 CPF checksum as the specification describes it, with
the weight vectors written out. -/
def cpfChecksum (d : List ℕ) : Bool :=
  decide (cpfDigit (weightedSum [10, 9, 8, 7, 6, 5, 4, 3, 2] (d.take 9))
      = d.getD 9 0)
    && decide (cpfDigit (weightedSum [11, 10, 9, 8, 7, 6, 5, 4, 3, 2] (d.take 10))
      = d.getD 10 0)

/-- The weighted mod-11 CNPJ checksum as the specification describes it
(weights cycling 2..9 from the rightmost digit), with the two weight vectors
written out. -/
def cnpjChecksum (d : List ℕ) : Bool :=
  decide (mod11Digit (weightedSum [5, 4, 3, 2, 9, 8, 7, 6, 5, 4, 3, 2] (d.take 12))
      = d.getD 12 0)
    && decide (mod11Digit (weightedSum [6, 5, 4, 3, 2, 9, 8, 7, 6, 5, 4, 3, 2] (d.take 13))
      = d.getD 13 0)

/-- Weight vector generated by a descending counter. -/
def descWeights : ℕ → ℕ → List ℕ
  | _, 0 => []
  | w, n + 1 => w :: descWeights (w - 1) n

/-- Weight vector generated by the decrement-and-cycle counter of
validateCNPJ. -/
def cycleWeights : ℕ → ℕ → List ℕ
  | _, 0 => []
  | pos, n + 1 => pos :: cycleWeights (if pos - 1 < 2 then 9 else pos - 1) n

theorem cpfSum_eq_weightedSum (l : List ℕ) (w : ℕ) :
    cpfSum l w = weightedSum (descWeights w l.length) l := by
  induction l generalizing w with
  | nil => simp [cpfSum, weightedSum, descWeights]
  | cons x rest ih =>
    simp [cpfSum, weightedSum, descWeights, ih]
    ring

theorem cnpjLoopSum_eq_weightedSum (l : List ℕ) (pos : ℕ) :
    cnpjLoopSum l pos = weightedSum (cycleWeights pos l.length) l := by
  induction l generalizing pos with
  | nil => simp [cnpjLoopSum, weightedSum, cycleWeights]
  | cons x rest ih =>
    simp [cnpjLoopSum, weightedSum, cycleWeights, ih]
    ring

theorem cpfDigit_of_mod (s : ℕ) :
    (if s * 10 % 11 = 10 ∨ s * 10 % 11 = 11 then 0 else s * 10 % 11)
      = cpfDigit s := by
  unfold cpfDigit
  split_ifs with h
  · omega
  · omega

theorem ite_two_checks (a b x y : ℕ) :
    ((if a ≠ x then false else if b ≠ y then false else true) : Bool)
      = (decide (a = x) && decide (b = y)) := by
  by_cases h1 : a = x <;> by_cases h2 : b = y <;> simp [h1, h2]

theorem validateCPF_eq_checksum (c : List Char) (hdig : ∀ x ∈ c, x.isDigit)
    (hlen : c.length = 11) :
    validateCPF c = (cpfChecksum (c.map digitVal) && !allSameChars c) := by
  have hclean : cleanDigits c = c :=
    List.filter_eq_self.mpr (fun a ha => hdig a ha)
  have hd11 : (c.map digitVal).length = 11 := by simp [hlen]
  have h9 : ((c.map digitVal).take 9).length = 9 := by
    simp [List.length_take, hd11]
  have h10 : ((c.map digitVal).take 10).length = 10 := by
    simp [List.length_take, hd11]
  have e1 : cpfSum ((c.map digitVal).take 9) 10
      = weightedSum [10, 9, 8, 7, 6, 5, 4, 3, 2] ((c.map digitVal).take 9) := by
    rw [cpfSum_eq_weightedSum, h9,
      show descWeights 10 9 = [10, 9, 8, 7, 6, 5, 4, 3, 2] from by decide]
  have e2 : cpfSum ((c.map digitVal).take 10) 11
      = weightedSum [11, 10, 9, 8, 7, 6, 5, 4, 3, 2]
          ((c.map digitVal).take 10) := by
    rw [cpfSum_eq_weightedSum, h10,
      show descWeights 11 10 = [11, 10, 9, 8, 7, 6, 5, 4, 3, 2] from by decide]
  simp only [validateCPF, hclean, hlen, ne_eq, not_true_eq_false,
    Bool.false_eq_true, if_false]
  by_cases hsame : allSameChars c
  · simp [hsame]
  · simp only [hsame, Bool.false_eq_true, if_false, Bool.not_false,
      Bool.and_true]
    rw [e1, e2, cpfDigit_of_mod, cpfDigit_of_mod, ite_two_checks]
    rfl

theorem validateCNPJ_eq_checksum (c : List Char) (hdig : ∀ x ∈ c, x.isDigit)
    (hlen : c.length = 14) :
    validateCNPJ c = (cnpjChecksum (c.map digitVal) && !allSameChars c) := by
  have hclean : cleanDigits c = c :=
    List.filter_eq_self.mpr (fun a ha => hdig a ha)
  have hd14 : (c.map digitVal).length = 14 := by simp [hlen]
  have h12 : ((c.map digitVal).take 12).length = 12 := by
    simp [List.length_take, hd14]
  have h13 : ((c.map digitVal).take 13).length = 13 := by
    simp [List.length_take, hd14]
  have e1 : cnpjLoopSum ((c.map digitVal).take 12) 5
      = weightedSum [5, 4, 3, 2, 9, 8, 7, 6, 5, 4, 3, 2]
          ((c.map digitVal).take 12) := by
    rw [cnpjLoopSum_eq_weightedSum, h12,
      show cycleWeights 5 12 = [5, 4, 3, 2, 9, 8, 7, 6, 5, 4, 3, 2] from
        by decide]
  have e2 : cnpjLoopSum ((c.map digitVal).take 13) 6
      = weightedSum [6, 5, 4, 3, 2, 9, 8, 7, 6, 5, 4, 3, 2]
          ((c.map digitVal).take 13) := by
    rw [cnpjLoopSum_eq_weightedSum, h13,
      show cycleWeights 6 13 = [6, 5, 4, 3, 2, 9, 8, 7, 6, 5, 4, 3, 2] from
        by decide]
  have hg0 : ((c.map digitVal).drop 12).getD 0 0
      = (c.map digitVal).getD 12 0 := by
    simp [List.getD_eq_getElem?_getD, List.getElem?_drop]
  have hg1 : ((c.map digitVal).drop 12).getD 1 0
      = (c.map digitVal).getD 13 0 := by
    simp [List.getD_eq_getElem?_getD, List.getElem?_drop]
  simp only [validateCNPJ, hclean, hlen, ne_eq, not_true_eq_false,
    Bool.false_eq_true, if_false]
  by_cases hsame : allSameChars c
  · simp [hsame]
  · simp only [hsame, Bool.false_eq_true, if_false, Bool.not_false,
      Bool.and_true]
    rw [e1, e2, hg0, hg1, ite_two_checks]
    rfl

/-- Claim C3: isValidTaxId accepts the empty string; an input whose digit
count is 11 validates iff the two-pass mod-11 CPF checksum passes and the
digits are not all identical; one whose digit count is 14 validates iff the
cycling-weights mod-11 CNPJ checksum passes for both check digits and the
digits are not all identical; any other digit count is invalid; and the four
reference inputs evaluate as the specification states. -/
theorem validateRegister_characterization :
    validateRegister [] = true
    ∧ (∀ s : List Char, (cleanDigits s).length = 11 →
        validateRegister s
          = (cpfChecksum ((cleanDigits s).map digitVal)
              && !allSameChars (cleanDigits s)))
    ∧ (∀ s : List Char, (cleanDigits s).length = 14 →
        validateRegister s
          = (cnpjChecksum ((cleanDigits s).map digitVal)
              && !allSameChars (cleanDigits s)))
    ∧ (∀ s : List Char, (cleanDigits s).length ≠ 0 →
        (cleanDigits s).length ≠ 11 → (cleanDigits s).length ≠ 14 →
        validateRegister s = false)
    ∧ validateRegister ("52998224725".toList) = true
    ∧ validateRegister ("11111111111".toList) = false
    ∧ validateRegister ("123456789".toList) = false
    ∧ validateRegister ("11222333000181".toList) = true := by
  refine ⟨by decide, ?_, ?_, ?_, by decide, by decide, by decide, by decide⟩
  · intro s h11
    simp only [validateRegister, h11]
    norm_num
    exact validateCPF_eq_checksum (cleanDigits s)
      (fun x hx => (List.mem_filter.mp hx).2) h11
  · intro s h14
    simp only [validateRegister, h14]
    norm_num
    exact validateCNPJ_eq_checksum (cleanDigits s)
      (fun x hx => (List.mem_filter.mp hx).2) h14
  · intro s h0 h11 h14
    simp [validateRegister, h0, h11, h14]

/-- Witness for C3: the 11-digit characterization applied to the reference
CPF. -/
theorem validateRegister_characterization_witness :
    validateRegister ("52998224725".toList)
      = (cpfChecksum ((cleanDigits ("52998224725".toList)).map digitVal)
          && !allSameChars (cleanDigits ("52998224725".toList))) :=
  validateRegister_characterization.2.1 ("52998224725".toList) (by decide)

/-- First-match replacement for the mask regexes `(\d{k})(\d)` with
replacement `$1<sep>$2`: at the leftmost position where k+1 consecutive
digits start, the separator is inserted after the first k of them; at most
one insertion happens (String.replace with a non-global regex). -/
def insSep (k : ℕ) (sep : Char) (l : List Char) : List Char :=
  match l with
  | [] => []
  | c :: rest =>
      if ((c :: rest).take (k + 1)).length = k + 1
          ∧ ((c :: rest).take (k + 1)).all Char.isDigit then
        (c :: rest).take k ++ sep :: (c :: rest).drop k
      else c :: insSep k sep rest

/-- First-match replacement for the end-anchored mask regexes
`(\d{k})(\d{1,2})$` with replacement `$1<sep>$2`: the leftmost match takes
the greedy two-digit second group when the last k+2 characters are all
digits, else the one-digit group when the last k+1 are. -/
def insSepEnd (k : ℕ) (sep : Char) (l : List Char) : List Char :=
  if k + 2 ≤ l.length ∧ (l.drop (l.length - (k + 2))).all Char.isDigit then
    l.take (l.length - 2) ++ sep :: l.drop (l.length - 2)
  else if k + 1 ≤ l.length
      ∧ (l.drop (l.length - (k + 1))).all Char.isDigit then
    l.take (l.length - 1) ++ sep :: l.drop (l.length - 1)
  else l

/-- Tax-id mask, from formatRegister: strip non-digits, then apply the
personal mask `000.000.000-00` when at most 11 digits remain, else truncate
to 14 digits and apply the corporate mask `00.000.000/0000-00`. -/
def formatRegister (value : List Char) : List Char :=
  if value = [] then []
  else if (cleanDigits value).length ≤ 11 then
    insSepEnd 3 '-' (insSep 3 '.' (insSep 3 '.' (cleanDigits value)))
  else
    insSepEnd 4 '-'
      (insSep 3 '/'
        (insSep 3 '.'
          (insSep 2 '.' ((cleanDigits value).take 14))))

theorem cleanDigits_cons (c : Char) (l : List Char) :
    cleanDigits (c :: l)
      = if c.isDigit then c :: cleanDigits l else cleanDigits l := by
  simp [cleanDigits, List.filter_cons]

theorem cleanDigits_append (a b : List Char) :
    cleanDigits (a ++ b) = cleanDigits a ++ cleanDigits b := by
  simp [cleanDigits, List.filter_append]

theorem cleanDigits_insSep (k : ℕ) (sep : Char) (hsep : sep.isDigit = false)
    (l : List Char) : cleanDigits (insSep k sep l) = cleanDigits l := by
  induction l with
  | nil => rfl
  | cons c rest ih =>
    simp only [insSep]
    split_ifs with h
    · rw [cleanDigits_append, cleanDigits_cons, hsep]
      simp only [Bool.false_eq_true, if_false]
      rw [← cleanDigits_append, List.take_append_drop]
    · rw [cleanDigits_cons, cleanDigits_cons, ih]

theorem cleanDigits_insSepEnd (k : ℕ) (sep : Char)
    (hsep : sep.isDigit = false) (l : List Char) :
    cleanDigits (insSepEnd k sep l) = cleanDigits l := by
  unfold insSepEnd
  split_ifs with h1 h2
  · rw [cleanDigits_append, cleanDigits_cons, hsep]
    simp only [Bool.false_eq_true, if_false]
    rw [← cleanDigits_append, List.take_append_drop]
  · rw [cleanDigits_append, cleanDigits_cons, hsep]
    simp only [Bool.false_eq_true, if_false]
    rw [← cleanDigits_append, List.take_append_drop]
  · rfl

theorem cleanDigits_formatRegister (x : List Char)
    (hdig : ∀ c ∈ x, c.isDigit) (hlen : x.length = 11 ∨ x.length = 14) :
    cleanDigits (formatRegister x) = x := by
  have hclean : cleanDigits x = x := List.filter_eq_self.mpr hdig
  have hxne : x ≠ [] := by
    intro h
    rcases hlen with h1 | h1 <;> simp [h] at h1
  unfold formatRegister
  rw [if_neg hxne, hclean]
  rcases hlen with h1 | h1
  · rw [if_pos (by simp [h1])]
    rw [cleanDigits_insSepEnd 3 _ (by decide),
      cleanDigits_insSep 3 _ (by decide),
      cleanDigits_insSep 3 _ (by decide), hclean]
  · rw [if_neg (by simp [h1])]
    have htake : x.take 14 = x := by
      rw [← h1, List.take_length]
    rw [htake, cleanDigits_insSepEnd 4 _ (by decide),
      cleanDigits_insSep 3 _ (by decide),
      cleanDigits_insSep 3 _ (by decide),
      cleanDigits_insSep 2 _ (by decide), hclean]

theorem validateRegister_congr (a b : List Char)
    (h : cleanDigits a = cleanDigits b) :
    validateRegister a = validateRegister b := by
  simp only [validateRegister, h]

/-- Claim C4: masking a tax id and then validating agrees with validating the
raw digit string, for every string of exactly 11 or exactly 14 digits. -/
theorem validate_format_roundtrip (x : List Char)
    (hdig : ∀ c ∈ x, c.isDigit) (hlen : x.length = 11 ∨ x.length = 14) :
    validateRegister (formatRegister x) = validateRegister x := by
  have hclean : cleanDigits x = x := List.filter_eq_self.mpr hdig
  exact validateRegister_congr _ _
    ((cleanDigits_formatRegister x hdig hlen).trans hclean.symm)

/-- Witness for C4 at the reference CPF string. -/
theorem validate_format_roundtrip_witness :
    validateRegister (formatRegister ("52998224725".toList))
      = validateRegister ("52998224725".toList) :=
  validate_format_roundtrip ("52998224725".toList) (by decide) (by decide)

/-- Lowercasing of one character as JavaScript toLowerCase acts on the ASCII
and Latin-1 letter ranges the name fields use. -/
def charLower (c : Char) : Char :=
  if 65 ≤ c.toNat ∧ c.toNat ≤ 90 then Char.ofNat (c.toNat + 32)
  else if 192 ≤ c.toNat ∧ c.toNat ≤ 222 ∧ c.toNat ≠ 215 then
    Char.ofNat (c.toNat + 32)
  else c

/-- Uppercasing of one character as JavaScript toUpperCase acts on the ASCII
and Latin-1 letter ranges the name fields use. -/
def charUpper (c : Char) : Char :=
  if 97 ≤ c.toNat ∧ c.toNat ≤ 122 then Char.ofNat (c.toNat - 32)
  else if 224 ≤ c.toNat ∧ c.toNat ≤ 254 ∧ c.toNat ≠ 247 then
    Char.ofNat (c.toNat - 32)
  else c

/-- Whitespace trim at both ends, modelling String.prototype.trim. -/
def trimChars (s : List Char) : List Char :=
  ((s.dropWhile Char.isWhitespace).reverse.dropWhile Char.isWhitespace).reverse

/-- The special-case token table of formatName (roman numerals, Mc, Mac and
the O-apostrophe prefix) with its fixed capitalizations. -/
def specialCases : List (List Char × List Char) :=
  [("ii".toList, "II".toList), ("iii".toList, "III".toList),
   ("iv".toList, "IV".toList), ("v".toList, "V".toList),
   ("x".toList, "X".toList), ("mc".toList, "Mc".toList),
   ("mac".toList, "Mac".toList),
   (['o', Char.ofNat 39], ['O', Char.ofNat 39])]

/-- The connector words kept lowercase when not in first position
(lowercasePrefixes in the source). -/
def connectorWords : List (List Char) :=
  ["e".toList, "da".toList, "de".toList, "di".toList, "do".toList,
   "dos".toList, "du".toList, "das".toList]

/-- The per-word mapping inside formatName's map over words: the special-case
table is consulted first, then connector words stay lowercase when the word
index is not 0, otherwise the word is title-cased (first character
uppercased, rest kept). -/
def processWord (word : List Char) (index : ℕ) : List Char :=
  let lowerWord := word.map charLower
  match specialCases.lookup lowerWord with
  | some rep => rep
  | none =>
      if lowerWord ∈ connectorWords ∧ index ≠ 0 then lowerWord
      else
        match word with
        | [] => []
        | c :: rest => charUpper c :: rest

/-- Person-name formatter, from formatName: empty input maps to empty;
otherwise trim, lowercase, split on single spaces, map each word by its
position, drop empty words, join with single spaces. -/
def formatName (name : List Char) : List Char :=
  if name = [] then []
  else
    List.intercalate (" ".toList)
      (((((trimChars name).map charLower).splitOn ' ').mapIdx
          (fun i w => processWord w i)).filter (fun w => w ≠ []))

/-- Claim C9: formatName yields the empty string on empty input, formats the
two reference inputs as the specification states, keeps connector words
lowercase exactly when they are not the first word, and always returns the
fixed capitalization for any word whose lowercase form is in the special-case
table, regardless of position (the table takes precedence). -/
theorem formatName_behavior :
    formatName [] = []
    ∧ formatName ("JOÃO DA SILVA".toList) = "João da Silva".toList
    ∧ formatName ("ii".toList) = "II".toList
    ∧ (∀ i : ℕ, i ≠ 0 → processWord ("da".toList) i = "da".toList)
    ∧ processWord ("da".toList) 0 = "Da".toList
    ∧ (∀ i : ℕ, processWord ("ii".toList) i = "II".toList)
    ∧ (∀ (w : List Char) (i : ℕ) (rep : List Char),
        specialCases.lookup (w.map charLower) = some rep →
          processWord w i = rep) := by
  refine ⟨by decide, by decide, by decide, ?_, by decide, ?_, ?_⟩
  · intro i hi
    simp only [processWord,
      show ("da".toList).map charLower = "da".toList from by decide,
      show specialCases.lookup ("da".toList) = none from by decide]
    rw [if_pos ⟨by decide, hi⟩]
  · intro i
    simp only [processWord,
      show ("ii".toList).map charLower = "ii".toList from by decide,
      show specialCases.lookup ("ii".toList)
          = some ("II".toList) from by decide]
  · intro w i rep h
    simp only [processWord, h]

/-- Witness for C9: a connector word away from the front stays lowercase, and
a special-case token keeps its fixed form at an arbitrary position. -/
theorem formatName_behavior_witness :
    processWord ("da".toList) 1 = "da".toList
    ∧ processWord ("ii".toList) 7 = "II".toList :=
  ⟨formatName_behavior.2.2.2.1 1 (by decide),
   formatName_behavior.2.2.2.2.2.2 ("ii".toList) 7 ("II".toList) (by decide)⟩

end SmartStore
